import Mathlib

/-!
Verification of the babbl markdown-to-HTML pipeline.

This file gives a shallow embedding of the parts of the babbl source that
the specification talks about:

* `src/babbl/renderer.py` — the `HTMLRenderer` class: HTML escaping, URL
  escaping, the per-node-kind render methods, the document template
  (`HTMLRenderer.html`), `get_css` and `get_header`;
* `src/babbl/cache.py` — the `CacheManager` class: `_load_cache`,
  `_calculate_hash`, `is_stale`, `update_cache`, `get_cached_output_path`;
* `src/babbl/frontmatter.py` — `merge_frontmatter`.

Python strings are modelled as Lean `String`/`List Char`, Python dicts as
association lists with insertion-order semantics, the file system as a
partial map from path strings to byte lists, and the external hash
(`hashlib.md5`) as an injective byte-stream encoding (collision freedom is
the design assumption of the cache subsystem).
-/

/-! ## Python dict model: association lists with insertion order -/

/-- First-match association lookup: Python `d[k]` / `d.get(k)`. -/
def dictFind {α : Type} : List (String × α) → String → Option α
  | [], _ => none
  | (k0, v0) :: rest, k => if k0 = k then some v0 else dictFind rest k

/-- Python `d[k] = v`: replace the value in place if the key is present,
otherwise append the pair at the end (insertion order). -/
def dictSet {α : Type} : List (String × α) → String → α → List (String × α)
  | [], k, v => [(k, v)]
  | (k0, v0) :: rest, k, v =>
    if k0 = k then (k0, v) :: rest else (k0, v0) :: dictSet rest k v

/-- Python `dst.update(src)`: assign every `src` pair into `dst` in order. -/
def dictUpdate {α : Type} (dst src : List (String × α)) : List (String × α) :=
  src.foldl (fun acc kv => dictSet acc kv.1 kv.2) dst

/-- The keys of a dict, in order. -/
def dictKeys {α : Type} (d : List (String × α)) : List String := d.map Prod.fst

/-- Python `sep.join(list)`. -/
def joinWith (sep : String) : List String → String
  | [] => ""
  | [x] => x
  | x :: y :: rest => x ++ sep ++ joinWith sep (y :: rest)

/-- Python `sep.join(value)` where `value` is itself a `str`: joining
iterates the *characters* of the string. -/
def joinChars (sep : String) (v : String) : String :=
  joinWith sep (v.data.map fun c => String.singleton c)

/-- `needle` occurs verbatim as a contiguous substring of `hay`. -/
def strOccurs (needle hay : String) : Prop :=
  ∃ p q : List Char, hay.data = p ++ needle.data ++ q

/-! ## Escaping (`renderer.py`)

`HTMLRenderer.escape_html` is
`html.escape(html.unescape(raw)).replace("&#x27;", "'")`, and
`HTMLRenderer.escape_url` is
`html.escape(quote(html.unescape(raw), safe="/#:()*?=%@+,&"))`.
-/

/-- The apostrophe character `'` (code point 39). -/
def apos : Char := Char.ofNat 39

/-- Per-character model of Python `html.escape(s, quote=True)`: it
replaces `&` by `&amp;`, `<` by `&lt;`, `>` by `&gt;`, `"` by `&quot;`
and the apostrophe by `&#x27;`; all other characters are kept. -/
def escCh (c : Char) : List Char :=
  if c = '&' then ['&', 'a', 'm', 'p', ';']
  else if c = '<' then ['&', 'l', 't', ';']
  else if c = '>' then ['&', 'g', 't', ';']
  else if c = '"' then ['&', 'q', 'u', 'o', 't', ';']
  else if c = apos then ['&', '#', 'x', '2', '7', ';']
  else [c]

/-- Python `html.escape(s, quote=True)`. -/
def pyHtmlEscape (s : String) : String := ⟨(s.data.map escCh).flatten⟩

/-- Model of Python `html.unescape`, restricted to the character
references for the HTML-unsafe character set (`&amp;` `&lt;` `&gt;`
`&quot;` `&#x27;` `&#39;` `&apos;`); the real function additionally decodes
the full HTML5 named-entity table and general numeric references, which
this model leaves untouched.  A `&` that starts no recognized reference is
kept literally, as in Python. -/
def unescCore : List Char → List Char
  | '&' :: 'a' :: 'm' :: 'p' :: ';' :: r => '&' :: unescCore r
  | '&' :: 'l' :: 't' :: ';' :: r => '<' :: unescCore r
  | '&' :: 'g' :: 't' :: ';' :: r => '>' :: unescCore r
  | '&' :: 'q' :: 'u' :: 'o' :: 't' :: ';' :: r => '"' :: unescCore r
  | '&' :: '#' :: 'x' :: '2' :: '7' :: ';' :: r => apos :: unescCore r
  | '&' :: '#' :: '3' :: '9' :: ';' :: r => apos :: unescCore r
  | '&' :: 'a' :: 'p' :: 'o' :: 's' :: ';' :: r => apos :: unescCore r
  | c :: r => c :: unescCore r
  | [] => []

/-- Python `html.unescape` (restricted model, see `unescCore`). -/
def pyHtmlUnescape (s : String) : String := ⟨unescCore s.data⟩

/-- Python `s.replace("&#x27;", "'")`: scan left to right, replacing each
(non-overlapping) occurrence of the six-character reference `&#x27;` by a
literal apostrophe. -/
def replAp : List Char → List Char
  | [] => []
  | '&' :: '#' :: 'x' :: '2' :: '7' :: ';' :: r => apos :: replAp r
  | c :: r => c :: replAp r

/-- `HTMLRenderer.escape_html` (renderer.py lines 201-204):
`html.escape(html.unescape(raw)).replace("&#x27;", "'")`. -/
def escape_html (raw : String) : String :=
  ⟨replAp (pyHtmlEscape (pyHtmlUnescape raw)).data⟩

/-- `HTMLRenderer.render_raw_text` (renderer.py lines 416-417):
`self.escape_html(element.children)`. -/
def render_raw_text (text : String) : String := escape_html text

/-- Characters `urllib.parse.quote` never encodes. -/
def urlAlwaysSafe (c : Char) : Bool :=
  c.isAlphanum && c.toNat < 128 || c = '_' || c = '.' || c = '-' || c = '~'

/-- The `safe=` set passed by `escape_url`: `/#:()*?=%@+,&`. -/
def urlSafeExtra : List Char := ['/', '#', ':', '(', ')', '*', '?', '=', '%', '@', '+', ',', '&']

/-- Upper-case hex digit of a value below 16. -/
def hexDigit (n : Nat) : Char :=
  if n < 10 then Char.ofNat (48 + n) else Char.ofNat (55 + n)

/-- UTF-8 byte encoding of a code point. -/
def utf8Bytes (n : Nat) : List Nat :=
  if n < 0x80 then [n]
  else if n < 0x800 then [0xC0 + n / 64, 0x80 + n % 64]
  else if n < 0x10000 then
    [0xE0 + n / 4096, 0x80 + n / 64 % 64, 0x80 + n % 64]
  else
    [0xF0 + n / 262144, 0x80 + n / 4096 % 64, 0x80 + n / 64 % 64, 0x80 + n % 64]

/-- Python `urllib.parse.quote(s, safe)`: keep the always-safe characters
and the given safe set; percent-encode the UTF-8 bytes of everything
else, upper-case hex. -/
def pyQuote (s : String) : String :=
  ⟨(s.data.map fun c =>
      if urlAlwaysSafe c || urlSafeExtra.contains c then [c]
      else (utf8Bytes c.toNat).map (fun b => ['%', hexDigit (b / 16), hexDigit (b % 16)]) |>.flatten).flatten⟩

/-- `HTMLRenderer.escape_url` (renderer.py lines 206-209). -/
def escape_url (raw : String) : String :=
  pyHtmlEscape (pyQuote (pyHtmlUnescape raw))

/-- Python `s.replace(pat, rep)` for a non-empty `pat`, fuelled by the
input length (each step consumes at least one character). -/
def replaceFuel (pat rep : List Char) : Nat → List Char → List Char
  | 0, l => l
  | _ + 1, [] => []
  | fuel + 1, c :: r =>
    if pat.isPrefixOf (c :: r) then rep ++ replaceFuel pat rep fuel ((c :: r).drop pat.length)
    else c :: replaceFuel pat rep fuel r

/-- Python `s.replace(pat, rep)` (for the non-empty patterns used here). -/
def strReplace (s pat rep : String) : String :=
  ⟨replaceFuel pat.data rep.data s.data.length s.data⟩

/-! ## The renderer (`renderer.py`)

The marko document tree is modelled as a closed inductive over the node
kinds the renderer handles.  Leaf nodes carry their raw text; `FencedCode`
carries its language tag and the text of its single `RawText` child
(`element.children[0].children`).
-/

inductive Element where
  | document (children : List Element)
  | paragraph (tight : Bool) (children : List Element)
  | heading (level : Int) (children : List Element)
  | setextHeading (level : Int) (children : List Element)
  | list (ordered : Bool) (start : Int) (children : List Element)
  | listItem (children : List Element)
  | quote (children : List Element)
  | fencedCode (lang : String) (code : String)
  | codeBlock (code : String)
  | htmlBlock (body : String)
  | thematicBreak
  | blankLine
  | linkRefDef
  | emphasis (children : List Element)
  | strongEmphasis (children : List Element)
  | inlineHTML (raw : String)
  | link (dest : String) (title : String) (children : List Element)
  | autoLink (dest : String) (title : String) (children : List Element)
  | image (dest : String) (title : String) (children : List Element)
  | rawText (text : String)
  | literal (text : String)
  | lineBreak (soft : Bool)
  | codeSpan (text : String)
  | table (headers : List String) (rows : List (List String))
  | tableHead (children : List Element)
  | tableBody (children : List Element)
  | tableRow (children : List Element)
  | tableCell (children : List Element)
  | tableHeadCell (children : List Element)

/-- Renderer configuration fixed at `HTMLRenderer.__init__`:
`highlight_syntax` (after the import check, `pygments_formatter` is
non-None exactly when `highlight_syntax` is true), the CSS loaded into
`base_css`, the output of `pygments_formatter.get_style_defs(".highlight")`,
and the highlighting call `highlight(code, get_lexer_by_name(lang),
formatter)` of the `try:` block in `render_fenced_code` — `none` models
any exception raised there (unresolved lexer or internal error), which the
bare `except:` turns into the fallback. -/
structure RConfig where
  highlightSyntax : Bool
  hl : String → String → Option String
  baseCss : String
  pygmentsCss : String

/-- `HTMLRenderer.render_fenced_code` (renderer.py lines 336-355).
`code` is `element.children[0].children`.  The guard is
`self.highlight_syntax and element.lang and self.pygments_formatter`
(an empty language string is falsy). -/
def render_fenced_code (cfg : RConfig) (lang code : String) : String :=
  match (if cfg.highlightSyntax && !(lang = "") then cfg.hl lang code else none) with
  | some highlighted =>
    strReplace highlighted "<div class=\"highlight\"><pre>"
      "<div class=\"highlight\"><pre class=\"code-block\">" ++ "\n"
  | none =>
    let langClass :=
      if !(lang = "") then " class=\"language-" ++ escape_html lang ++ "\"" else ""
    "<pre class=\"code-block\"" ++ langClass ++ "><code>" ++ pyHtmlEscape code ++ "</code></pre>\n"

/-- `render_list_item` separator test:
`len(element.children) == 1 and getattr(element.children[0], "_tight", False)`
(`_tight` is an attribute of marko paragraphs; the `getattr` default is
`False` for every other child kind). -/
def listItemTightSep : List Element → Bool
  | [Element.paragraph tight _] => tight
  | _ => false

mutual

/-- The render dispatch: a call of `self.render(child)`.  The mutable
instance attribute `self.render` — rebound to `render_plain_text` inside
`render_image` and restored afterwards — is threaded explicitly as the
boolean `pl` (`true` = `self.render` currently bound to
`render_plain_text`); the second component of the result is the binding
left behind after the call.  The per-kind branches are the
`HTMLRenderer.render_*` methods (normal mode) and `render_plain_text`
(text-only mode: string-children leaves are escaped, every other node is
flattened to its rendered children). -/
def rdr (cfg : RConfig) (pl : Bool) : Element → String × Bool
  | .document cs =>
    -- no `render_document` method: marko's dispatch falls back to
    -- `render_children` (identical in both modes)
    rChildren cfg pl cs
  | .paragraph tight cs =>
    let r := rChildren cfg pl cs
    (if pl then r.1
     else if tight then r.1 else "<p class=\"paragraph\">" ++ r.1 ++ "</p>\n", r.2)
  | .heading level cs =>
    let r := rChildren cfg pl cs
    (if pl then r.1
     else "<h" ++ toString level ++ " class=\"heading-" ++ toString level ++ "\">"
        ++ r.1 ++ "</h" ++ toString level ++ ">\n", r.2)
  | .setextHeading level cs =>
    -- `render_setext_heading` casts and calls `render_heading`
    let r := rChildren cfg pl cs
    (if pl then r.1
     else "<h" ++ toString level ++ " class=\"heading-" ++ toString level ++ "\">"
        ++ r.1 ++ "</h" ++ toString level ++ ">\n", r.2)
  | .list ordered start cs =>
    let r := rChildren cfg pl cs
    (if pl then r.1
     else if ordered then
       "<ol class=\"ordered-list\""
         ++ (if start ≠ 1 then " start=\"" ++ toString start ++ "\"" else "")
         ++ ">\n" ++ r.1 ++ "</ol>\n"
     else "<ul class=\"unordered-list\">\n" ++ r.1 ++ "</ul>\n", r.2)
  | .listItem cs =>
    let r := rChildren cfg pl cs
    (if pl then r.1
     else "<li class=\"list-item\">" ++ (if listItemTightSep cs then "" else "\n")
        ++ r.1 ++ "</li>\n", r.2)
  | .quote cs =>
    let r := rChildren cfg pl cs
    (if pl then r.1
     else "<blockquote class=\"blockquote\">\n" ++ r.1 ++ "</blockquote>\n", r.2)
  | .fencedCode lang code =>
    -- in text-only mode the single `RawText` child is escaped
    (if pl then escape_html code else render_fenced_code cfg lang code, pl)
  | .codeBlock code =>
    -- `render_code_block` casts and calls `render_fenced_code`; a marko
    -- `CodeBlock` carries no language tag
    (if pl then escape_html code else render_fenced_code cfg "" code, pl)
  | .htmlBlock body =>
    (if pl then escape_html body else body, pl)
  | .thematicBreak => (if pl then "" else "<hr />\n", pl)
  | .blankLine => ("", pl)
  | .linkRefDef => ("", pl)
  | .emphasis cs =>
    let r := rChildren cfg pl cs
    (if pl then r.1 else "<em class=\"emphasis\">" ++ r.1 ++ "</em>", r.2)
  | .strongEmphasis cs =>
    let r := rChildren cfg pl cs
    (if pl then r.1 else "<strong class=\"strong\">" ++ r.1 ++ "</strong>", r.2)
  | .inlineHTML raw =>
    (if pl then escape_html raw else raw, pl)
  | .link dest title cs =>
    let r := rChildren cfg pl cs
    (if pl then r.1
     else "<a href=\"" ++ escape_url dest ++ "\" class=\"link\""
        ++ (if title ≠ "" then " title=\"" ++ escape_html title ++ "\"" else "")
        ++ ">" ++ r.1 ++ "</a>", r.2)
  | .autoLink dest title cs =>
    -- `render_auto_link` casts and calls `render_link`
    let r := rChildren cfg pl cs
    (if pl then r.1
     else "<a href=\"" ++ escape_url dest ++ "\" class=\"link\""
        ++ (if title ≠ "" then " title=\"" ++ escape_html title ++ "\"" else "")
        ++ ">" ++ r.1 ++ "</a>", r.2)
  | .image dest title cs =>
    if pl then rChildren cfg pl cs
    else
      -- render_image: `render_func = self.render`;
      -- `self.render = self.render_plain_text`; render the children;
      -- `self.render = render_func` — the children run with the binding
      -- set to text-only and the saved binding is put back afterwards
      let body := (rChildren cfg true cs).1
      ("<img src=\"" ++ escape_url dest ++ "\" alt=\"" ++ body ++ "\" class=\"image\""
        ++ (if title ≠ "" then " title=\"" ++ escape_html title ++ "\"" else "")
        ++ " />", pl)
  | .rawText text => (escape_html text, pl)
  | .literal text =>
    -- `render_literal` casts and calls `render_raw_text`
    (escape_html text, pl)
  | .lineBreak soft =>
    (if pl then "" else if soft then "\n" else "<br />\n", pl)
  | .codeSpan text =>
    (if pl then escape_html text
     else "<code class=\"inline-code\">" ++ pyHtmlEscape text ++ "</code>", pl)
  | .table headers rows =>
    -- the custom Table element has `headers`/`rows`, so the first branch
    -- of `render_table` applies
    (if pl then ""
     else
      "<div class=\"table-container\">\n<table class=\"table\">\n<thead>\n<tr>\n"
        ++ String.join (headers.map fun h => "<th>" ++ escape_html h ++ "</th>\n")
        ++ "</tr>\n</thead>\n<tbody>\n"
        ++ String.join (rows.map fun row =>
            "<tr>\n" ++ String.join (row.map fun cell => "<td>" ++ escape_html cell ++ "</td>\n")
              ++ "</tr>\n")
        ++ "</tbody>\n</table>\n</div>\n", pl)
  | .tableHead cs =>
    let r := rChildren cfg pl cs
    (if pl then r.1 else "<thead>\n" ++ r.1 ++ "</thead>\n", r.2)
  | .tableBody cs =>
    let r := rChildren cfg pl cs
    (if pl then r.1 else "<tbody>\n" ++ r.1 ++ "</tbody>\n", r.2)
  | .tableRow cs =>
    let r := rChildren cfg pl cs
    (if pl then r.1 else "<tr>\n" ++ r.1 ++ "</tr>\n", r.2)
  | .tableCell cs =>
    let r := rChildren cfg pl cs
    (if pl then r.1 else "<td>" ++ r.1 ++ "</td>\n", r.2)
  | .tableHeadCell cs =>
    let r := rChildren cfg pl cs
    (if pl then r.1 else "<th>" ++ r.1 ++ "</th>\n", r.2)

/-- marko's `render_children`:
`"".join(self.render(child) for child in element.children)` — each child
is rendered through the current `self.render` binding, and the binding the
child leaves behind is the one the next child sees. -/
def rChildren (cfg : RConfig) (pl : Bool) : List Element → String × Bool
  | [] => ("", pl)
  | e :: es =>
    let r1 := rdr cfg pl e
    let r2 := rChildren cfg r1.2 es
    (r1.1 ++ r2.1, r2.2)

end

/-- The extra CSS block appended after the Pygments style definitions in
`get_css` (renderer.py lines 245-262). -/
def highlightExtraCss : String :=
  "\n.highlight \x7b\n    background: #f5f5f5;\n    border: none;\n    margin: 1rem 0;\n\x7d\n.highlight pre \x7b\n    margin: 0;\n    padding: 1rem;\n    overflow-x: auto;\n    font-family: 'SF Mono', 'Monaco', 'Inconsolata', 'Roboto Mono', monospace;\n    font-size: 0.85rem;\n    line-height: 1.4;\n\x7d"

/-- `HTMLRenderer.get_css` (renderer.py lines 238-264). -/
def get_css (cfg : RConfig) : String :=
  if cfg.highlightSyntax then cfg.baseCss ++ "\n" ++ cfg.pygmentsCss ++ highlightExtraCss
  else cfg.baseCss

/-- The `meta_str` built by `HTMLRenderer.html`:
`"\n".join(f"<meta name={key} content={value}>" ...)` — note the attribute
values are interpolated raw and unquoted. -/
def metaTags (md : List (String × String)) : String :=
  joinWith "\n" (md.map fun kv => "<meta name=" ++ kv.1 ++ " content=" ++ kv.2 ++ ">")

/-- One `meta-field` line of `get_header`. -/
def metaField (label value : String) : String :=
  "<div class=\"meta-field\">" ++ label ++ ": " ++ value ++ "</div>\n"

/-- The keys `get_header` pops before iterating the remainder. -/
def headerSpecialKeys : List String :=
  ["title", "author", "date", "summary", "description", "tags", "categories",
   "slug", "layout", "draft"]

/-- `HTMLRenderer.get_header` (renderer.py lines 266-306).  The method
copies the dict and pops the special keys in a fixed order; the remainder
is iterated in insertion order.  All values are interpolated raw (no
escaping); the `tags` value of this `dict[str, str]` is rendered as
`", ".join(meta["tags"])`, which joins its *characters*. -/
def get_header (md : List (String × String)) : String :=
  "<header>\n"
  ++ (match dictFind md "title" with
      | some t => "<h1 class=\"title\">" ++ t ++ "</h1>\n"
      | none => "")
  ++ "<div class='metadata'>\n"
  ++ (match dictFind md "author" with
      | some v => metaField "Author" v
      | none => "")
  ++ (match dictFind md "date" with
      | some v => metaField "Date" v
      | none => "")
  ++ (match dictFind md "summary" with
      | some v => metaField "Summary" v
      | none => "")
  ++ (match dictFind md "description" with
      | some v => metaField "Description" v
      | none => "")
  ++ (match dictFind md "tags" with
      | some v => metaField "Tags" (joinChars ", " v)
      | none => "")
  ++ (match dictFind md "categories" with
      | some v => metaField "Categories" v
      | none => "")
  ++ (match dictFind md "slug" with
      | some v => metaField "Slug" v
      | none => "")
  ++ (match dictFind md "layout" with
      | some v => metaField "Layout" v
      | none => "")
  ++ (match dictFind md "draft" with
      | some v => metaField "Draft" v
      | none => "")
  ++ String.join ((md.filter fun kv => !(headerSpecialKeys.contains kv.1)).map fun kv =>
        metaField kv.1 kv.2)
  ++ "</div>\n"
  ++ "<hr />\n"
  ++ "</header>\n"

/-- `HTMLRenderer.html` (renderer.py lines 211-236): render the tree
(`super().render(element)` — the tree root is the parsed marko `Document`,
for which the class dispatch and the threaded dispatch agree) and build
the complete document.  `metadata` is falsy when the dict is empty. -/
def htmlDoc (cfg : RConfig) (pl : Bool) (md : List (String × String))
    (tree : Element) : String × Bool :=
  let c := rdr cfg pl tree
  let metaStr := if md.isEmpty then "" else metaTags md
  let titleStr :=
    if md.isEmpty then ""
    else "<title>" ++ ((dictFind md "title").getD "Document") ++ "</title>"
  let headerStr := if md.isEmpty then "" else get_header md
  ("<!DOCTYPE html>\n<html lang=\"en\">\n<head>\n<meta charset=\"UTF-8\">\n<meta name=\"viewport\" content=\"width=device-width, initial-scale=1.0\">\n"
    ++ metaStr ++ "\n" ++ titleStr ++ "\n<style>\n" ++ get_css cfg
    ++ "\n</style>\n</head>\n<body>\n<section>\n" ++ headerStr ++ "\n" ++ c.1
    ++ "\n</section>\n</body>\n</html>", c.2)

/-! ## The cache manager (`cache.py`)

Paths are modelled as their canonicalized absolute string form (so
`get_cache_key`, which is `str(file_path.absolute())`, is the identity),
and the file system as a partial map from path to byte list (`none` =
missing or unreadable). -/

abbrev Bytes := List Nat

abbrev FileSys := String → Option Bytes

/-- Model of `hashlib.md5(...).hexdigest()` over a byte stream: an
injective encoding that is never the empty list (the empty list models
the empty string `""`).  Collision freedom is the stated design
assumption of the cache subsystem; the chunked 4096-byte read feeds the
same byte stream to the hash as a whole-file read. -/
def md5Hex (b : Bytes) : List Nat := 0 :: b

/-- `CacheManager._calculate_hash` (cache.py lines 43-60): hash of the
file's bytes, or `""` if the file cannot be read (`IOError`). -/
def calculate_hash (fs : FileSys) (p : String) : List Nat :=
  match fs p with
  | some b => md5Hex b
  | none => []

/-- One cache entry as written by `update_cache` (cache.py lines 146-156). -/
structure CacheEntry where
  hash : List Nat
  output_path : String
  last_processed : String
  content_hash : Option (List Nat)
  metadata : Option (List (String × String))

abbrev CacheData := List (String × CacheEntry)

/-- `CacheManager.get_cache_key`: `str(file_path.absolute())` — the
identity on already-canonical path strings. -/
def get_cache_key (p : String) : String := p

/-- `CacheManager.is_stale` (cache.py lines 86-104). -/
def is_stale (fs : FileSys) (cd : CacheData) (p : String) : Bool :=
  match dictFind cd (get_cache_key p) with
  | none => true
  | some e => !(calculate_hash fs p = e.hash)

/-- `CacheManager.update_cache` (cache.py lines 127-159): recompute the
source hash and store the entry under the cache key (the in-memory
mutation; `_save_cache` persists the whole store and never raises). -/
def update_cache (fs : FileSys) (cd : CacheData) (p o now : String)
    (contentHash : Option (List Nat)) (metadata : Option (List (String × String))) :
    CacheData :=
  dictSet cd (get_cache_key p)
    ⟨calculate_hash fs p, o, now, contentHash, metadata⟩

/-- `CacheManager.get_cached_output_path` (cache.py lines 161-180):
the stored `output_path` is returned only when it is truthy and the file
it names still exists on disk. -/
def get_cached_output_path (fs : FileSys) (cd : CacheData) (p : String) :
    Option String :=
  match dictFind cd (get_cache_key p) with
  | some e =>
    if !(e.output_path = "") then
      if (fs e.output_path).isSome then some e.output_path else none
    else none
  | none => none

/-! ### Loading the durable store (`_load_cache`, cache.py lines 25-33)

The outcome of `open(self.cache_file, "r", encoding="utf-8")` followed by
`json.load(f)` is modelled by `CacheFile`; the exception class raised by a
failing attempt matters because the handler is
`except (json.JSONDecodeError, IOError)`. -/

/-- A JSON value as returned by `json.load`. -/
inductive Json where
  | null
  | bool (b : Bool)
  | num (n : Int)
  | str (s : String)
  | arr (l : List Json)
  | obj (l : List (String × Json))

/-- The exception classes relevant to `_load_cache`.  `IOError` is an
alias of `OSError`; `json.JSONDecodeError` is a `ValueError` subclass;
`UnicodeDecodeError` is a `ValueError` subclass that is *neither* an
`OSError` nor a `JSONDecodeError`. -/
inductive PyExn where
  | osError
  | jsonDecodeError
  | unicodeDecodeError

/-- Which exceptions the `except (json.JSONDecodeError, IOError)` clause
of `_load_cache` catches, per the Python exception hierarchy. -/
def caughtByLoadHandler : PyExn → Bool
  | .osError => true
  | .jsonDecodeError => true
  | .unicodeDecodeError => false

/-- The state of the durable cache file, as the outcome of the
open-and-parse attempt: missing; an OS read error; bytes that are not
valid UTF-8 (the text-mode `read` inside `json.load` raises
`UnicodeDecodeError`); well-formed UTF-8 that is not valid JSON
(`json.JSONDecodeError`); or a successfully parsed JSON value of any
shape. -/
inductive CacheFile where
  | missing
  | readError
  | invalidUtf8
  | invalidJson
  | parsed (v : Json)

/-- Outcome of `open(...)` + `json.load(f)` on a present cache file. -/
def readAndParse : CacheFile → Except PyExn Json
  | .missing => .error .osError
  | .readError => .error .osError
  | .invalidUtf8 => .error .unicodeDecodeError
  | .invalidJson => .error .jsonDecodeError
  | .parsed v => .ok v

/-- `CacheManager._load_cache`: if the file does not exist return `{}`;
otherwise try the open-and-parse, returning `{}` on a caught exception and
propagating any other exception to the constructor's caller. -/
def load_cache (cf : CacheFile) : Except PyExn Json :=
  match cf with
  | .missing => .ok (Json.obj [])
  | cf =>
    match readAndParse cf with
    | .ok v => .ok v
    | .error e => if caughtByLoadHandler e then .ok (Json.obj []) else .error e

/-! ## Frontmatter merge (`frontmatter.py`) -/

/-- A YAML frontmatter value: a scalar, a sequence or a nested mapping. -/
inductive YVal where
  | str (s : String)
  | num (n : Int)
  | seq (l : List YVal)
  | map (m : List (String × YVal))

abbrev FmRecord := List (String × YVal)

/-- `merge_frontmatter` (frontmatter.py lines 70-91): start from an empty
dict, `update` with the sidecar record when truthy, then `update` with
the inline record when truthy (a `None` or empty dict is falsy). -/
def merge_frontmatter (inl sidecar : Option FmRecord) : FmRecord :=
  let result : FmRecord := []
  let result :=
    match sidecar with
    | some s => if s.isEmpty then result else dictUpdate result s
    | none => result
  match inl with
  | some i => if i.isEmpty then result else dictUpdate result i
  | none => result

/-! ## Definitions modelled from the spec's words (for refinement claims) -/

/-- Modelled from the spec: re-encode the HTML-unsafe character set
"except the apostrophe, which is deliberately left as a literal character
rather than re-encoded". -/
def escChNoApos (c : Char) : List Char :=
  if c = apos then [apos] else escCh c

/-- Modelled from the spec: free text in body position is "first
normalized (decode existing entities, then re-encode the HTML-unsafe
character set) — except the apostrophe". -/
def escapeSpecNoApos (raw : String) : String :=
  ⟨((pyHtmlUnescape raw).data.map escChNoApos).flatten⟩

/-- Modelled from the spec: the highlighting fallback — "an escaped plain
code block, tagging a language class if one was declared": the
`language-<name>` class attribute is present exactly when a language was
declared on the fence. -/
def plainCodeBlockSpec (lang code : String) : String :=
  "<pre class=\"code-block\""
    ++ (if lang ≠ "" then " class=\"language-" ++ escape_html lang ++ "\"" else "")
    ++ "><code>" ++ pyHtmlEscape code ++ "</code></pre>\n"

/-- Modelled from the claim: `get_header` with every value interpolated
verbatim — identical to `get_header` except that the `tags` value is
placed into its line unchanged instead of being character-joined. -/
def get_header_verbatim (md : List (String × String)) : String :=
  "<header>\n"
  ++ (match dictFind md "title" with
      | some t => "<h1 class=\"title\">" ++ t ++ "</h1>\n"
      | none => "")
  ++ "<div class='metadata'>\n"
  ++ (match dictFind md "author" with
      | some v => metaField "Author" v
      | none => "")
  ++ (match dictFind md "date" with
      | some v => metaField "Date" v
      | none => "")
  ++ (match dictFind md "summary" with
      | some v => metaField "Summary" v
      | none => "")
  ++ (match dictFind md "description" with
      | some v => metaField "Description" v
      | none => "")
  ++ (match dictFind md "tags" with
      | some v => metaField "Tags" v
      | none => "")
  ++ (match dictFind md "categories" with
      | some v => metaField "Categories" v
      | none => "")
  ++ (match dictFind md "slug" with
      | some v => metaField "Slug" v
      | none => "")
  ++ (match dictFind md "layout" with
      | some v => metaField "Layout" v
      | none => "")
  ++ (match dictFind md "draft" with
      | some v => metaField "Draft" v
      | none => "")
  ++ String.join ((md.filter fun kv => !(headerSpecialKeys.contains kv.1)).map fun kv =>
        metaField kv.1 kv.2)
  ++ "</div>\n"
  ++ "<hr />\n"
  ++ "</header>\n"

/-- Does the string start with one of `<h1` … `<h6`?  (The tag-level test
behind the spec's "level clamped to 1–6".) -/
def startsWithHeadingTag16 (s : String) : Bool :=
  [1, 2, 3, 4, 5, 6].any fun k => List.isPrefixOf ("<h" ++ toString k).data s.data

/-- A concrete renderer configuration: highlighting disabled. -/
def cfgPlain : RConfig := ⟨false, fun _ _ => none, "body", "pyg"⟩

/-- A concrete renderer configuration: highlighting enabled but every
highlighting call failing (every language unresolved). -/
def cfgHlFail : RConfig := ⟨true, fun _ _ => none, "body", "pyg"⟩

/-- `optOr a b`: `a` if present, else `b` (per-key precedence). -/
def optOr {α : Type} (a b : Option α) : Option α :=
  match a with
  | some v => some v
  | none => b

/-- A file system with `/src.md` holding bytes `[1, 2, 3]`. -/
def fsA : FileSys := fun q => if q = "/src.md" then some [1, 2, 3] else none

/-- `fsA` after a single-byte change to `/src.md`. -/
def fsB : FileSys := fun q => if q = "/src.md" then some [9, 2, 3] else none

/-- A cache store with one entry for `/src.md` recording `/out.html`. -/
def cdOut : CacheData := [("/src.md", ⟨[0, 1], "/out.html", "t0", none, none⟩)]

/-- A file system on which `/out.html` exists. -/
def fsOutThere : FileSys := fun q => if q = "/out.html" then some [7] else none

/-- A file system on which every file, in particular `/out.html`, is gone. -/
def fsOutGone : FileSys := fun _ => none

/-! ## Lemmas about `replAp` and the per-character escapers -/

theorem replAp_cons (c : Char) (l : List Char) (h : c ≠ '&') :
    replAp (c :: l) = c :: replAp l := by
  rw [replAp.eq_def]
  split <;> simp_all

theorem replAp_tok (l : List Char) :
    replAp ('&' :: '#' :: 'x' :: '2' :: '7' :: ';' :: l) = apos :: replAp l := by
  simp [replAp]

theorem replAp_amp (l : List Char) :
    replAp ('&' :: 'a' :: 'm' :: 'p' :: ';' :: l)
      = '&' :: 'a' :: 'm' :: 'p' :: ';' :: replAp l := by
  rw [replAp.eq_def]
  split
  · simp_all
  · simp_all
  · rename_i heq
    injection heq with h1 h2
    subst h1; subst h2
    simp [replAp_cons]

theorem replAp_lt (l : List Char) :
    replAp ('&' :: 'l' :: 't' :: ';' :: l) = '&' :: 'l' :: 't' :: ';' :: replAp l := by
  rw [replAp.eq_def]
  split
  · simp_all
  · simp_all
  · rename_i heq
    injection heq with h1 h2
    subst h1; subst h2
    simp [replAp_cons]

theorem replAp_gt (l : List Char) :
    replAp ('&' :: 'g' :: 't' :: ';' :: l) = '&' :: 'g' :: 't' :: ';' :: replAp l := by
  rw [replAp.eq_def]
  split
  · simp_all
  · simp_all
  · rename_i heq
    injection heq with h1 h2
    subst h1; subst h2
    simp [replAp_cons]

theorem replAp_quot (l : List Char) :
    replAp ('&' :: 'q' :: 'u' :: 'o' :: 't' :: ';' :: l)
      = '&' :: 'q' :: 'u' :: 'o' :: 't' :: ';' :: replAp l := by
  rw [replAp.eq_def]
  split
  · simp_all
  · simp_all
  · rename_i heq
    injection heq with h1 h2
    subst h1; subst h2
    simp [replAp_cons]

theorem escCh_other (c : Char) (h1 : c ≠ '&') (h2 : c ≠ '<') (h3 : c ≠ '>')
    (h4 : c ≠ '"') (h5 : c ≠ apos) : escCh c = [c] := by
  simp [escCh, h1, h2, h3, h4, h5]

/-- Replacing `&#x27;` back by an apostrophe after `html.escape` is the
same as escaping every unsafe character except the apostrophe: every `&`
produced by the escaper starts one of its own references, and of those
only the apostrophe reference matches the replaced pattern. -/
theorem replAp_escape (cs : List Char) :
    replAp ((cs.map escCh).flatten) = (cs.map escChNoApos).flatten := by
  induction cs with
  | nil => rfl
  | cons c cs ih =>
    simp only [List.map_cons, List.flatten_cons]
    by_cases h1 : c = '&'
    · subst h1
      have e1 : escCh '&' = ['&', 'a', 'm', 'p', ';'] := by decide
      have e2 : escChNoApos '&' = ['&', 'a', 'm', 'p', ';'] := by decide
      rw [e1, e2]
      simpa using (replAp_amp _).trans (by simp [ih])
    · by_cases h2 : c = '<'
      · subst h2
        have e1 : escCh '<' = ['&', 'l', 't', ';'] := by decide
        have e2 : escChNoApos '<' = ['&', 'l', 't', ';'] := by decide
        rw [e1, e2]
        simpa using (replAp_lt _).trans (by simp [ih])
      · by_cases h3 : c = '>'
        · subst h3
          have e1 : escCh '>' = ['&', 'g', 't', ';'] := by decide
          have e2 : escChNoApos '>' = ['&', 'g', 't', ';'] := by decide
          rw [e1, e2]
          simpa using (replAp_gt _).trans (by simp [ih])
        · by_cases h4 : c = '"'
          · subst h4
            have e1 : escCh '"' = ['&', 'q', 'u', 'o', 't', ';'] := by decide
            have e2 : escChNoApos '"' = ['&', 'q', 'u', 'o', 't', ';'] := by decide
            rw [e1, e2]
            simpa using (replAp_quot _).trans (by simp [ih])
          · by_cases h5 : c = apos
            · subst h5
              have e1 : escCh apos = ['&', '#', 'x', '2', '7', ';'] := by decide
              have e2 : escChNoApos apos = [apos] := by decide
              rw [e1, e2]
              simpa using (replAp_tok _).trans (by simp [ih])
            · rw [escCh_other c h1 h2 h3 h4 h5]
              have e2 : escChNoApos c = [c] := by
                simp [escChNoApos, h5, escCh_other c h1 h2 h3 h4 h5]
              rw [e2]
              simpa using (replAp_cons c _ h1).trans (by simp [ih])

theorem escape_html_eq_spec (raw : String) :
    escape_html raw = escapeSpecNoApos raw :=
  congrArg String.mk (replAp_escape (unescCore raw.data))

/-- C2: free text in HTML body position (for example through
`render_raw_text`) is produced by decoding existing entities and then
re-encoding the HTML-unsafe characters, except that the apostrophe is left
as a literal character; in particular `<script>` renders as
`&lt;script&gt;` and an apostrophe renders as a literal `'`. -/
theorem c2_escape_decode_reencode_except_apostrophe :
    (∀ raw : String, escape_html raw = escapeSpecNoApos raw)
    ∧ render_raw_text "<script>" = "&lt;script&gt;"
    ∧ render_raw_text (String.singleton apos) = String.singleton apos :=
  ⟨escape_html_eq_spec, by decide, by decide⟩

/-- C3: on any highlighting failure — a language that does not resolve to
a lexer or an internal highlighter error (`cfg.hl lang code = none`), or
highlighting disabled — `render_fenced_code` returns the escaped plain
code block, carrying a `language-<name>` class exactly when a language was
declared; it never raises (it is a total function into the fallback). -/
theorem c3_fenced_code_fallback (cfg : RConfig) (lang code : String)
    (h : cfg.hl lang code = none ∨ cfg.highlightSyntax = false) :
    render_fenced_code cfg lang code = plainCodeBlockSpec lang code := by
  unfold render_fenced_code plainCodeBlockSpec
  rcases h with h | h
  · cases hc : cfg.highlightSyntax && !(lang = "") <;> simp [hc, h]
  · simp [h]

/-- Witness for C3 at a concrete input: highlighting enabled, the language
`zlang` unresolved, the code body escaped and the class present. -/
theorem c3_fenced_code_fallback_witness :
    render_fenced_code cfgHlFail "zlang" "a<b" = plainCodeBlockSpec "zlang" "a<b"
    ∧ plainCodeBlockSpec "zlang" "a<b"
        = "<pre class=\"code-block\" class=\"language-zlang\"><code>a&lt;b</code></pre>\n" :=
  ⟨c3_fenced_code_fallback cfgHlFail "zlang" "a<b" (Or.inl rfl), by decide⟩

/-! ## State restoration of the render dispatch -/

mutual

/-- Every render call hands back the `self.render` binding it was entered
with: in particular `render_image` restores the saved binding after
rendering its children in text-only mode. -/
theorem rdr_preserves (cfg : RConfig) (pl : Bool) (e : Element) :
    (rdr cfg pl e).2 = pl := by
  cases e with
  | document cs => simpa [rdr] using rChildren_preserves cfg pl cs
  | paragraph tight cs => simpa [rdr] using rChildren_preserves cfg pl cs
  | heading level cs => simpa [rdr] using rChildren_preserves cfg pl cs
  | setextHeading level cs => simpa [rdr] using rChildren_preserves cfg pl cs
  | list ordered start cs => simpa [rdr] using rChildren_preserves cfg pl cs
  | listItem cs => simpa [rdr] using rChildren_preserves cfg pl cs
  | quote cs => simpa [rdr] using rChildren_preserves cfg pl cs
  | fencedCode lang code => simp [rdr]
  | codeBlock code => simp [rdr]
  | htmlBlock body => simp [rdr]
  | thematicBreak => simp [rdr]
  | blankLine => simp [rdr]
  | linkRefDef => simp [rdr]
  | emphasis cs => simpa [rdr] using rChildren_preserves cfg pl cs
  | strongEmphasis cs => simpa [rdr] using rChildren_preserves cfg pl cs
  | inlineHTML raw => simp [rdr]
  | link dest title cs => simpa [rdr] using rChildren_preserves cfg pl cs
  | autoLink dest title cs => simpa [rdr] using rChildren_preserves cfg pl cs
  | image dest title cs =>
    simp only [rdr]
    split
    · exact rChildren_preserves cfg pl cs
    · rfl
  | rawText text => simp [rdr]
  | literal text => simp [rdr]
  | lineBreak soft => simp [rdr]
  | codeSpan text => simp [rdr]
  | table headers rows => simp [rdr]
  | tableHead cs => simpa [rdr] using rChildren_preserves cfg pl cs
  | tableBody cs => simpa [rdr] using rChildren_preserves cfg pl cs
  | tableRow cs => simpa [rdr] using rChildren_preserves cfg pl cs
  | tableCell cs => simpa [rdr] using rChildren_preserves cfg pl cs
  | tableHeadCell cs => simpa [rdr] using rChildren_preserves cfg pl cs

/-- `render_children` hands back the binding it was entered with. -/
theorem rChildren_preserves (cfg : RConfig) (pl : Bool) (es : List Element) :
    (rChildren cfg pl es).2 = pl := by
  cases es with
  | nil => simp [rChildren]
  | cons e es =>
    have h1 := rdr_preserves cfg pl e
    have h2 := rChildren_preserves cfg (rdr cfg pl e).2 es
    rw [h1] at h2
    simp only [rChildren]
    rw [h1]
    exact h2

end

/-- C1: rendering is pure and deterministic — for every document tree and
metadata mapping, under a fixed renderer configuration, a second call of
`HTMLRenderer.html` on the same tree and metadata (starting from the
renderer state the first call left behind) returns a byte-identical
string, and the first call leaves the `self.render` binding in its
initial (normal-dispatch) state. -/
theorem c1_render_deterministic (cfg : RConfig) (md : List (String × String))
    (tree : Element) :
    (htmlDoc cfg ((htmlDoc cfg false md tree).2) md tree).1
        = (htmlDoc cfg false md tree).1
    ∧ (htmlDoc cfg false md tree).2 = false := by
  have h : (htmlDoc cfg false md tree).2 = false := by
    simpa [htmlDoc] using rdr_preserves cfg false tree
  exact ⟨by rw [h], h⟩

/-- C9 counterexample: a heading node carrying level 7 is emitted verbatim
as an `<h7>` tag with class `heading-7` — `render_heading` applies no
clamping, so the emitted tag level is not within 1…6. -/
theorem c9_counterexample :
    (rdr cfgPlain false (Element.heading 7 [Element.rawText "x"])).1
        = "<h7 class=\"heading-7\">x</h7>\n"
    ∧ startsWithHeadingTag16
        ((rdr cfgPlain false (Element.heading 7 [Element.rawText "x"])).1) = false := by
  constructor
  · decide
  · decide

/-- C9 (amended): `render_heading` interpolates the node's level verbatim
into both the tag and the `heading-<level>` class, with no clamping; the
emitted level therefore lies within 1–6 exactly when the node's level does
(which holds for every parser-produced heading). -/
theorem c9_heading_level_verbatim (cfg : RConfig) (lvl : Int) (cs : List Element)
    (h1 : 1 ≤ lvl) (h6 : lvl ≤ 6) :
    (rdr cfg false (Element.heading lvl cs)).1
      = "<h" ++ toString lvl ++ " class=\"heading-" ++ toString lvl ++ "\">"
        ++ (rChildren cfg false cs).1 ++ "</h" ++ toString lvl ++ ">\n"
    ∧ 1 ≤ lvl ∧ lvl ≤ 6 :=
  ⟨by simp [rdr], h1, h6⟩

/-- Witness for the amended C9 at a concrete level-3 heading. -/
theorem c9_heading_level_verbatim_witness :
    (rdr cfgPlain false (Element.heading 3 [Element.rawText "x"])).1
      = "<h" ++ toString (3 : Int) ++ " class=\"heading-" ++ toString (3 : Int) ++ "\">"
        ++ (rChildren cfgPlain false [Element.rawText "x"]).1
        ++ "</h" ++ toString (3 : Int) ++ ">\n"
    ∧ (1 : Int) ≤ 3 ∧ (3 : Int) ≤ 6 :=
  c9_heading_level_verbatim cfgPlain 3 [Element.rawText "x"] (by decide) (by decide)

/-- C4: evaluation of `render_image` at a concrete image node — the alt
text is the image's children flattened to escaped plain text, and the
dispatch binding is back to normal after the call.  (The mechanism in the
source is the temporary rebinding of the mutable instance attribute
`self.render`, restored only on normal completion; see RESULTS for the
divergence from the claim.) -/
theorem c4_image_text_only_eval :
    rdr cfgPlain false
        (Element.image "a.png" "" [Element.emphasis [Element.rawText "alt text"]])
      = ("<img src=\"a.png\" alt=\"alt text\" class=\"image\" />", false) := by decide

/-! ## Dict lemmas -/

theorem dictFind_dictSet_self {α : Type} (d : List (String × α)) (k : String) (v : α) :
    dictFind (dictSet d k v) k = some v := by
  induction d with
  | nil => simp [dictSet, dictFind]
  | cons kv rest ih =>
    obtain ⟨k0, v0⟩ := kv
    by_cases h : k0 = k <;> simp [dictSet, dictFind, h, ih]

theorem dictFind_dictSet_ne {α : Type} (d : List (String × α)) (k k' : String) (v : α)
    (h : k ≠ k') : dictFind (dictSet d k v) k' = dictFind d k' := by
  induction d with
  | nil => simp [dictSet, dictFind, h]
  | cons kv rest ih =>
    obtain ⟨k0, v0⟩ := kv
    by_cases h0 : k0 = k
    · subst h0
      simp [dictSet, dictFind, h]
    · simp [dictSet, dictFind, h0, ih]

/-! ## Cache claims -/

/-- C5: right after `update_cache(P, O)` the entry holds the hash of P's
current bytes, so `is_stale(P)` is false for as long as P's bytes are
unchanged; any change to P's bytes (in particular any single-byte change)
makes `is_stale(P)` true; and `is_stale` is true whenever no cache entry
exists for the path. -/
theorem c5_cache_staleness (fs : FileSys) (cd : CacheData) (p o now : String)
    (ch : Option (List Nat)) (m : Option (List (String × String))) (b : Bytes)
    (hb : fs p = some b) :
    (∀ fs2 : FileSys, fs2 p = some b →
        is_stale fs2 (update_cache fs cd p o now ch m) p = false)
    ∧ (∀ (fs2 : FileSys) (b2 : Bytes), fs2 p = some b2 → b2 ≠ b →
        is_stale fs2 (update_cache fs cd p o now ch m) p = true)
    ∧ (∀ (fs0 : FileSys) (cd0 : CacheData) (q : String), dictFind cd0 q = none →
        is_stale fs0 cd0 q = true) := by
  refine ⟨?_, ?_, ?_⟩
  · intro fs2 h2
    simp [is_stale, update_cache, get_cache_key, dictFind_dictSet_self,
      calculate_hash, hb, h2]
  · intro fs2 b2 h2 hne
    simp [is_stale, update_cache, get_cache_key, dictFind_dictSet_self,
      calculate_hash, hb, h2, md5Hex, hne]
  · intro fs0 cd0 q hq
    simp [is_stale, get_cache_key, hq]

/-- Witness for C5 at a concrete path and byte change. -/
theorem c5_cache_staleness_witness :
    is_stale fsA (update_cache fsA [] "/src.md" "/out.html" "t0" none none) "/src.md" = false
    ∧ is_stale fsB (update_cache fsA [] "/src.md" "/out.html" "t0" none none) "/src.md" = true
    ∧ is_stale fsA [] "/src.md" = true := by
  have h := c5_cache_staleness fsA [] "/src.md" "/out.html" "t0" none none [1, 2, 3]
    (by decide)
  exact ⟨h.1 fsA (by decide), h.2.1 fsB [9, 2, 3] (by decide) (by decide),
    h.2.2 fsA [] "/src.md" rfl⟩

/-- C6: `get_cached_output_path` returns the recorded output path only
when that file currently exists on disk; an entry whose recorded output
file is gone yields `none` even though the entry record is still present;
a missing entry yields `none`. -/
theorem c6_cached_output_path (fs : FileSys) (cd : CacheData) (p : String) :
    (∀ e : CacheEntry, dictFind cd p = some e → e.output_path ≠ "" →
        (fs e.output_path).isSome = true →
        get_cached_output_path fs cd p = some e.output_path)
    ∧ (∀ e : CacheEntry, dictFind cd p = some e → fs e.output_path = none →
        get_cached_output_path fs cd p = none)
    ∧ (dictFind cd p = none → get_cached_output_path fs cd p = none)
    ∧ (∀ o : String, get_cached_output_path fs cd p = some o →
        (fs o).isSome = true) := by
  refine ⟨?_, ?_, ?_, ?_⟩
  · intro e he hne hex
    simp [get_cached_output_path, get_cache_key, he, hne, hex]
  · intro e he hnone
    simp only [get_cached_output_path, get_cache_key, he]
    split
    · simp [hnone]
    · rfl
  · intro h
    simp [get_cached_output_path, get_cache_key, h]
  · intro o ho
    unfold get_cached_output_path get_cache_key at ho
    cases hf : dictFind cd p with
    | none => simp [hf] at ho
    | some e =>
      simp only [hf] at ho
      by_cases h1 : e.output_path = ""
      · simp [h1] at ho
      · simp only [h1, Bool.not_false, decide_eq_false_iff_not, not_false_eq_true,
          decide_eq_true_eq, if_true] at ho
        by_cases h2 : (fs e.output_path).isSome = true
        · simp only [h2, if_true] at ho
          injection ho with ho
          rw [← ho]
          exact h2
        · simp [h2] at ho

/-- Witness for C6: the recorded path is returned while the output file
exists, and the same still-present entry yields a cache miss after the
output file is deleted. -/
theorem c6_cached_output_path_witness :
    get_cached_output_path fsOutThere cdOut "/src.md" = some "/out.html"
    ∧ get_cached_output_path fsOutGone cdOut "/src.md" = none
    ∧ get_cached_output_path fsOutThere [] "/src.md" = none := by
  refine ⟨?_, ?_, ?_⟩
  · exact (c6_cached_output_path fsOutThere cdOut "/src.md").1
      ⟨[0, 1], "/out.html", "t0", none, none⟩ rfl (by decide) rfl
  · exact (c6_cached_output_path fsOutGone cdOut "/src.md").2.1
      ⟨[0, 1], "/out.html", "t0", none, none⟩ rfl rfl
  · exact (c6_cached_output_path fsOutThere [] "/src.md").2.2.1 rfl

/-- C7 counterexample: a cache file whose bytes are not valid UTF-8 is
corrupt durable state, yet loading it raises an uncaught
`UnicodeDecodeError` (a `ValueError` that matches neither
`json.JSONDecodeError` nor `IOError`) instead of degrading to the empty
store. -/
theorem c7_counterexample :
    load_cache CacheFile.invalidUtf8 = Except.error PyExn.unicodeDecodeError
    ∧ load_cache CacheFile.invalidUtf8 ≠ Except.ok (Json.obj []) := by
  refine ⟨rfl, by simp [load_cache, readAndParse, caughtByLoadHandler]⟩

/-- C7 (amended): a missing cache file, an OS read error, and
syntactically invalid JSON each degrade to the empty in-memory store
without raising; but cache-file bytes that are not valid UTF-8 raise an
uncaught `UnicodeDecodeError`, and well-formed JSON of any shape is loaded
as-is. -/
theorem c7_load_cache_degrades (cf : CacheFile)
    (h : cf = CacheFile.missing ∨ cf = CacheFile.readError ∨ cf = CacheFile.invalidJson) :
    load_cache cf = Except.ok (Json.obj []) := by
  rcases h with h | h | h <;> subst h <;> rfl

/-- Witness for the amended C7 at the invalid-JSON state. -/
theorem c7_load_cache_degrades_witness :
    load_cache CacheFile.invalidJson = Except.ok (Json.obj []) :=
  c7_load_cache_degrades CacheFile.invalidJson (Or.inr (Or.inr rfl))

/-! ## Frontmatter merge (C8) -/

theorem optOr_none_right {α : Type} (a : Option α) : optOr a none = a := by
  cases a <;> rfl

theorem dictFind_eq_none_of_not_mem {α : Type} (d : List (String × α)) (k : String)
    (h : k ∉ dictKeys d) : dictFind d k = none := by
  induction d with
  | nil => rfl
  | cons kv rest ih =>
    obtain ⟨k0, v0⟩ := kv
    simp only [dictKeys, List.map_cons, List.mem_cons, not_or] at h
    by_cases h0 : k0 = k
    · exact absurd h0.symm h.1
    · simpa [dictFind, h0] using ih (by simpa [dictKeys] using h.2)

theorem dictUpdate_cons {α : Type} (d : List (String × α)) (kv : String × α)
    (src : List (String × α)) :
    dictUpdate d (kv :: src) = dictUpdate (dictSet d kv.1 kv.2) src := rfl

theorem dictFind_dictUpdate {α : Type} (src : List (String × α))
    (hn : (dictKeys src).Nodup) (d : List (String × α)) (k : String) :
    dictFind (dictUpdate d src) k = optOr (dictFind src k) (dictFind d k) := by
  induction src generalizing d with
  | nil => simp [dictUpdate, dictFind, optOr]
  | cons kv rest ih =>
    obtain ⟨k0, v0⟩ := kv
    simp only [dictKeys, List.map_cons, List.nodup_cons] at hn
    rw [dictUpdate_cons, ih (by simpa [dictKeys] using hn.2)]
    by_cases h0 : k0 = k
    · subst h0
      have hnone : dictFind rest k0 = none :=
        dictFind_eq_none_of_not_mem rest k0 (by simpa [dictKeys] using hn.1)
      simp [dictFind, optOr, hnone, dictFind_dictSet_self]
    · simp [dictFind, h0, dictFind_dictSet_ne d k0 k v0 h0]

theorem dictSet_append {α : Type} (d : List (String × α)) (k : String) (v : α)
    (h : k ∉ dictKeys d) : dictSet d k v = d ++ [(k, v)] := by
  induction d with
  | nil => rfl
  | cons kv rest ih =>
    obtain ⟨k0, v0⟩ := kv
    simp only [dictKeys, List.map_cons, List.mem_cons, not_or] at h
    have h0 : ¬k0 = k := fun hh => h.1 hh.symm
    simp [dictSet, h0, ih (by simpa [dictKeys] using h.2)]

theorem dictUpdate_append {α : Type} (src : List (String × α))
    (hn : (dictKeys src).Nodup) (d : List (String × α))
    (hd : ∀ k ∈ dictKeys src, k ∉ dictKeys d) :
    dictUpdate d src = d ++ src := by
  induction src generalizing d with
  | nil => simp [dictUpdate]
  | cons kv rest ih =>
    obtain ⟨k0, v0⟩ := kv
    simp only [dictKeys, List.map_cons, List.nodup_cons] at hn
    rw [dictUpdate_cons]
    rw [dictSet_append d k0 v0 (hd k0 (by simp [dictKeys]))]
    rw [ih (by simpa [dictKeys] using hn.2)]
    · simp
    · intro k hk
      have hk' : k ∈ dictKeys ((k0, v0) :: rest) := by
        simp only [dictKeys, List.map_cons, List.mem_cons]
        exact Or.inr (by simpa [dictKeys] using hk)
      have h1 : k ∉ dictKeys d := hd k hk'
      have h2 : ¬k = k0 := by
        intro hh
        subst hh
        exact hn.1 (by simpa [dictKeys] using hk)
      simp only [dictKeys, List.map_append, List.map_cons, List.map_nil, List.mem_append,
        List.mem_cons, List.not_mem_nil, or_false, not_or]
      exact ⟨by simpa [dictKeys] using h1, h2⟩

theorem dictUpdate_nil_left {α : Type} (src : List (String × α))
    (hn : (dictKeys src).Nodup) : dictUpdate [] src = src := by
  simpa using dictUpdate_append src hn [] (by simp [dictKeys])

/-- C8: `merge_frontmatter` combines the two records key by key with the
inline value winning on every shared key and values taken wholesale (no
deep combination — the inline value replaces the sidecar value even when
both are nested mappings); inline `{title: "A"}` with sidecar
`{title: "B", author: "C"}` yields `{title: "A", author: "C"}`; and a
missing input leaves the result equal to the other input. -/
theorem c8_merge_frontmatter (inl sc : FmRecord)
    (hi : (dictKeys inl).Nodup) (hs : (dictKeys sc).Nodup) :
    (∀ k : String, dictFind (merge_frontmatter (some inl) (some sc)) k
        = optOr (dictFind inl k) (dictFind sc k))
    ∧ merge_frontmatter (some inl) none = inl
    ∧ merge_frontmatter none (some sc) = sc
    ∧ merge_frontmatter none none = []
    ∧ merge_frontmatter (some [("title", YVal.str "A")])
        (some [("title", YVal.str "B"), ("author", YVal.str "C")])
        = [("title", YVal.str "A"), ("author", YVal.str "C")]
    ∧ merge_frontmatter (some [("a", YVal.map [("x", YVal.str "1")])])
        (some [("a", YVal.map [("y", YVal.str "2")])])
        = [("a", YVal.map [("x", YVal.str "1")])] := by
  refine ⟨?_, ?_, ?_, rfl, rfl, rfl⟩
  · intro k
    cases hse : sc.isEmpty <;> cases hie : inl.isEmpty
    · -- both records nonempty
      simp only [merge_frontmatter, hse, hie, Bool.false_eq_true, if_false]
      rw [dictFind_dictUpdate inl hi _ k, dictFind_dictUpdate sc hs [] k]
      simp [dictFind, optOr_none_right]
    · -- sidecar nonempty, inline empty
      rw [List.isEmpty_iff] at hie
      subst hie
      simp only [merge_frontmatter, hse, Bool.false_eq_true, if_false, List.isEmpty_nil,
        if_true]
      rw [dictFind_dictUpdate sc hs [] k]
      cases dictFind sc k <;> rfl
    · -- sidecar empty, inline nonempty
      rw [List.isEmpty_iff] at hse
      subst hse
      simp only [merge_frontmatter, hie, Bool.false_eq_true, if_false, List.isEmpty_nil,
        if_true]
      rw [dictFind_dictUpdate inl hi [] k]
    · -- both empty
      rw [List.isEmpty_iff] at hse hie
      subst hse; subst hie
      rfl
  · cases hie : inl.isEmpty
    · simp only [merge_frontmatter, hie, Bool.false_eq_true, if_false]
      exact dictUpdate_nil_left inl hi
    · rw [List.isEmpty_iff] at hie
      subst hie
      rfl
  · cases hse : sc.isEmpty
    · simp only [merge_frontmatter, hse, Bool.false_eq_true, if_false]
      exact dictUpdate_nil_left sc hs
    · rw [List.isEmpty_iff] at hse
      subst hse
      rfl

/-- Witness for C8 at the spec's concrete example: the shared key takes
the inline value and the sidecar-only key survives. -/
theorem c8_merge_frontmatter_witness :
    dictFind (merge_frontmatter (some [("title", YVal.str "A")])
        (some [("title", YVal.str "B"), ("author", YVal.str "C")])) "title"
      = optOr (dictFind [("title", YVal.str "A")] "title")
          (dictFind [("title", YVal.str "B"), ("author", YVal.str "C")] "title") :=
  (c8_merge_frontmatter [("title", YVal.str "A")]
    [("title", YVal.str "B"), ("author", YVal.str "C")]
    (by decide) (by decide)).1 "title"

/-! ## Verbatim metadata interpolation (C10) -/

theorem strOccurs_self (n : String) : strOccurs n n := ⟨[], [], by simp⟩

theorem strOccurs_app_left (a n h : String) (ho : strOccurs n h) :
    strOccurs n (a ++ h) := by
  obtain ⟨p, q, hp⟩ := ho
  exact ⟨a.data ++ p, q, by simp [String.data_append, hp, List.append_assoc]⟩

theorem strOccurs_app_right (b n h : String) (ho : strOccurs n h) :
    strOccurs n (h ++ b) := by
  obtain ⟨p, q, hp⟩ := ho
  exact ⟨p, q ++ b.data, by simp [String.data_append, hp, List.append_assoc]⟩

theorem strOccurs_trans (a b c : String) (h1 : strOccurs a b) (h2 : strOccurs b c) :
    strOccurs a c := by
  obtain ⟨p1, q1, e1⟩ := h1
  obtain ⟨p2, q2, e2⟩ := h2
  refine ⟨p2 ++ p1, q1 ++ q2, ?_⟩
  rw [e2, e1]
  simp [List.append_assoc]

theorem strOccurs_joinWith (sep x : String) (l : List String) (hx : x ∈ l) :
    strOccurs x (joinWith sep l) := by
  induction l with
  | nil => cases hx
  | cons y rest ih =>
    cases rest with
    | nil =>
      have h : x = y := by simpa using hx
      subst h
      exact strOccurs_self x
    | cons z rest2 =>
      simp only [joinWith]
      rcases List.mem_cons.mp hx with h | h
      · subst h
        exact strOccurs_app_right _ _ _ (strOccurs_app_right _ _ _ (strOccurs_self x))
      · exact strOccurs_app_left (y ++ sep) x _ (ih h)

/-- The full unquoted, unescaped meta line of a metadata pair occurs
verbatim in `meta_str`. -/
theorem metaTags_line_occurs (md : List (String × String)) (k v : String)
    (h : (k, v) ∈ md) :
    strOccurs ("<meta name=" ++ k ++ " content=" ++ v ++ ">") (metaTags md) := by
  apply strOccurs_joinWith
  exact List.mem_map.mpr ⟨(k, v), h, rfl⟩

theorem value_occurs_in_meta_line (k v : String) :
    strOccurs v ("<meta name=" ++ k ++ " content=" ++ v ++ ">") :=
  strOccurs_app_right _ _ _ (strOccurs_app_left _ _ _ (strOccurs_self v))

/-- The three metadata-bearing parts of the document template occur as
contiguous blocks of the output of `HTMLRenderer.html` whenever the
metadata dict is truthy. -/
theorem htmlDoc_parts_occur (cfg : RConfig) (pl : Bool) (md : List (String × String))
    (tree : Element) (hmd : md.isEmpty = false) :
    strOccurs (metaTags md) ((htmlDoc cfg pl md tree).1)
    ∧ strOccurs ("<title>" ++ ((dictFind md "title").getD "Document") ++ "</title>")
        ((htmlDoc cfg pl md tree).1)
    ∧ strOccurs (get_header md) ((htmlDoc cfg pl md tree).1) := by
  simp only [htmlDoc, hmd, Bool.false_eq_true, if_false]
  refine ⟨?_, ?_, ?_⟩
  · apply strOccurs_app_right
    apply strOccurs_app_right
    apply strOccurs_app_right
    apply strOccurs_app_right
    apply strOccurs_app_right
    apply strOccurs_app_right
    apply strOccurs_app_right
    apply strOccurs_app_right
    apply strOccurs_app_right
    exact strOccurs_app_left _ _ _ (strOccurs_self _)
  · apply strOccurs_app_right
    apply strOccurs_app_right
    apply strOccurs_app_right
    apply strOccurs_app_right
    apply strOccurs_app_right
    apply strOccurs_app_right
    apply strOccurs_app_right
    exact strOccurs_app_left _ _ _ (strOccurs_self _)
  · apply strOccurs_app_right
    apply strOccurs_app_right
    apply strOccurs_app_right
    exact strOccurs_app_left _ _ _ (strOccurs_self _)

/-- C10 counterexample: for the metadata `{tags: "ab"}` the body header
does not interpolate the value verbatim — `", ".join` over the string
joins its characters, so `get_header` shows `Tags: a, b` where the
claim's verbatim interpolation would show `Tags: ab`. -/
theorem c10_counterexample :
    get_header [("tags", "ab")] ≠ get_header_verbatim [("tags", "ab")]
    ∧ get_header [("tags", "ab")]
        = "<header>\n<div class='metadata'>\n<div class=\"meta-field\">Tags: a, b</div>\n</div>\n<hr />\n</header>\n"
    ∧ get_header_verbatim [("tags", "ab")]
        = "<header>\n<div class='metadata'>\n<div class=\"meta-field\">Tags: ab</div>\n</div>\n<hr />\n</header>\n" :=
  ⟨by decide, by decide, by decide⟩

/-- C10 (amended): every metadata pair is interpolated raw — no HTML
escaping and no entity normalization — into the head: the unquoted line
`<meta name=K content=V>` occurs verbatim in `meta_str`, the raw value
occurs verbatim in the full document, and the `<title>` element carries
the raw title (default `Document`); `get_header` interpolates every value
verbatim *except* the `tags` value, which is character-joined with
`", "` (on tags-free metadata it agrees with the claim's fully-verbatim
header). -/
theorem c10_metadata_raw_interpolation :
    (∀ (md : List (String × String)) (k v : String), (k, v) ∈ md →
        strOccurs ("<meta name=" ++ k ++ " content=" ++ v ++ ">") (metaTags md))
    ∧ (∀ (cfg : RConfig) (pl : Bool) (md : List (String × String)) (tree : Element)
        (k v : String), (k, v) ∈ md →
        strOccurs v ((htmlDoc cfg pl md tree).1))
    ∧ (∀ (cfg : RConfig) (pl : Bool) (md : List (String × String)) (tree : Element),
        md.isEmpty = false →
        strOccurs ("<title>" ++ ((dictFind md "title").getD "Document") ++ "</title>")
          ((htmlDoc cfg pl md tree).1)
        ∧ strOccurs (get_header md) ((htmlDoc cfg pl md tree).1))
    ∧ (∀ md : List (String × String), dictFind md "tags" = none →
        get_header md = get_header_verbatim md) := by
  refine ⟨metaTags_line_occurs, ?_, ?_, ?_⟩
  · intro cfg pl md tree k v h
    have hmd : md.isEmpty = false := by
      cases md with
      | nil => cases h
      | cons kv rest => rfl
    exact strOccurs_trans v (metaTags md) _
      (strOccurs_trans v ("<meta name=" ++ k ++ " content=" ++ v ++ ">") (metaTags md)
        (value_occurs_in_meta_line k v) (metaTags_line_occurs md k v h))
      ((htmlDoc_parts_occur cfg pl md tree hmd).1)
  · intro cfg pl md tree hmd
    exact ⟨(htmlDoc_parts_occur cfg pl md tree hmd).2.1,
      (htmlDoc_parts_occur cfg pl md tree hmd).2.2⟩
  · intro md h
    simp only [get_header, get_header_verbatim, h]

/-- Witness for the amended C10: a raw `<script>` element placed as a
metadata value reaches the rendered document unescaped. -/
theorem c10_metadata_raw_interpolation_witness :
    strOccurs "<script>alert(1)</script>"
      ((htmlDoc cfgPlain false [("author", "<script>alert(1)</script>")]
          (Element.document [])).1) :=
  c10_metadata_raw_interpolation.2.1 cfgPlain false
    [("author", "<script>alert(1)</script>")] (Element.document [])
    "author" "<script>alert(1)</script>" (by simp)
